import Mathlib

/-!
Verification of the VT Code agent core against its specification.

Each section embeds one part of the Rust source as executable Lean
definitions (strings are modelled as lists of characters; fallible code
returns `Except`; stateful code passes state explicitly) and proves the
specified properties about them.
-/

/-! ## Common string helpers

Models of the Rust standard-library string primitives the embedded code
uses (`char::is_whitespace`, `str::trim_end`, `str::trim`, `str::find`,
`str::contains`).  A Rust `&str` is modelled as a `List Char`; the byte
offsets Rust reports become character offsets, which is faithful here
because every pattern the code searches for is ASCII and slices are only
taken at match boundaries.
-/

/-- Model of Rust `char::is_whitespace` (the Unicode White_Space property). -/
def rustIsWhitespace (c : Char) : Bool :=
  c = ' ' || c = '\t' || c = '\n' || c = '\r' ||
  c = '\x0B' || c = '\x0C' || c = '\u0085' || c = '\u00A0' ||
  c = '\u1680' ||
  ('\u2000' ≤ c && c ≤ '\u200A') ||
  c = '\u2028' || c = '\u2029' || c = '\u202F' || c = '\u205F' ||
  c = '\u3000'

/-- Model of Rust `str::trim_start`. -/
def trimStartChars (s : List Char) : List Char :=
  s.dropWhile rustIsWhitespace

/-- Model of Rust `str::trim_end`. -/
def trimEndChars (s : List Char) : List Char :=
  (s.reverse.dropWhile rustIsWhitespace).reverse

/-- Model of Rust `str::trim`. -/
def trimChars (s : List Char) : List Char :=
  trimEndChars (trimStartChars s)

/-- Whether `p` is an initial run of `h` (Rust `str::starts_with`). -/
def startsWithSeq : List Char → List Char → Bool
  | [], _ => true
  | _ :: _, [] => false
  | p :: ps, h :: hs => p = h && startsWithSeq ps hs

/-- Model of Rust `str::find` for a literal pattern: index of the first
occurrence of `pat` in `hay`. -/
def findSub : List Char → List Char → Option Nat
  | hay, pat =>
    match hay with
    | [] => if startsWithSeq pat [] then some 0 else none
    | c :: t =>
      if startsWithSeq pat (c :: t) then some 0
      else (findSub t pat).map (· + 1)

/-- Model of Rust `str::contains` for a literal pattern. -/
def containsSub (hay pat : List Char) : Bool :=
  (findSub hay pat).isSome

/-- The characters of a Lean string, for writing concrete test inputs. -/
def chars (s : String) : List Char :=
  s.data

/-! ## Patch path validation

Embedding of `validate_patch_path`
(`vtcode-core/src/tools/editing/patch/path.rs`).  The function is run on
Unix, where `std::path::Path` has no `Prefix` components, a path
`is_absolute` exactly when it starts with `/`, and a `ParentDir`
component is a maximal run between separators equal to `..`; the
`RootDir` component occurs only in absolute paths, which the earlier
check already rejected.
-/

/-- Split a character list into the maximal runs between `/` separators
(empty runs included). -/
def splitOnSlash : List Char → List (List Char)
  | [] => [[]]
  | c :: t =>
    if c = '/' then [] :: splitOnSlash t
    else
      match splitOnSlash t with
      | [] => [[c]]
      | f :: rest => (c :: f) :: rest

/-- The non-empty path segments of a raw path, as `std::path` sees them. -/
def pathSegments (raw : List Char) : List (List Char) :=
  (splitOnSlash raw).filter (fun seg => seg ≠ [])

/-- Whether the path has a `..` component (`std::path::Component::ParentDir`). -/
def hasParentSegment (raw : List Char) : Bool :=
  (pathSegments raw).any (fun seg => seg = ['.', '.'])

/-- Embedding of `validate_patch_path` (path.rs lines 5-59); the returned
string is the `reason` field of the `PatchError::InvalidPath` it raises. -/
def validatePatchPath (raw : List Char) : Except String Unit :=
  if raw = [] then
    Except.error "path is empty"
  else if raw.any (fun c => c = '\x00' || c = '\r' || c = '\n' || c = '\t') then
    Except.error "path contains control characters"
  else if raw.head? = some '/' then
    Except.error "path must be relative"
  else if hasParentSegment raw then
    Except.error "path escapes workspace"
  else if containsSub raw ['/', '/'] then
    Except.error "path contains consecutive separators"
  else
    Except.ok ()

/-! ## Patch context matcher

Embedding of `PatchContextMatcher::seek` and `normalise`
(`vtcode-core/src/tools/editing/patch/matcher.rs`).  A file line is a
`List Char` and the file is a `List (List Char)`; `seek` runs four
sequential scans of the candidate range, one per equivalence relation,
exactly as the four `for` loops in the source.
-/

/-- Embedding of `normalise` (matcher.rs lines 76-91) applied to one
character: map Unicode dashes, quotes and spaces to ASCII equivalents. -/
def normaliseChar (c : Char) : Char :=
  if c = '‐' || c = '‑' || c = '‒' || c = '–' ||
     c = '—' || c = '―' || c = '−' then '-'
  else if c = '‘' || c = '’' || c = '‚' || c = '‛' then '\''
  else if c = '“' || c = '”' || c = '„' || c = '‟' then '\"'
  else if c = ' ' || c = ' ' || c = ' ' || c = ' ' ||
          c = ' ' || c = ' ' || c = ' ' || c = ' ' ||
          c = ' ' || c = ' ' || c = ' ' || c = ' ' ||
          c = '　' then ' '
  else c

/-- Embedding of `normalise` (matcher.rs lines 76-91): trim, then map
each character to its ASCII equivalent. -/
def normaliseLine (s : List Char) : List Char :=
  (trimChars s).map normaliseChar

/-- First fallback relation of `seek`: exact line equality. -/
def lineEqExact (a b : List Char) : Bool :=
  a = b

/-- Second fallback relation of `seek`: per-line `trim_end` equality. -/
def lineEqTrimEnd (a b : List Char) : Bool :=
  trimEndChars a = trimEndChars b

/-- Third fallback relation of `seek`: per-line full `trim` equality. -/
def lineEqTrim (a b : List Char) : Bool :=
  trimChars a = trimChars b

/-- Fourth fallback relation of `seek`: normalised equality. -/
def lineEqNorm (a b : List Char) : Bool :=
  normaliseLine a = normaliseLine b

/-- The body of one candidate check in a `seek` loop: every line of the
pattern is related to the corresponding file line starting at `idx`. -/
def matchesAt (rel : List Char → List Char → Bool)
    (lines pattern : List (List Char)) (idx : Nat) : Bool :=
  ((lines.drop idx).take pattern.length).length = pattern.length &&
  (((lines.drop idx).take pattern.length).zip pattern).all (fun p => rel p.1 p.2)

/-- One `for idx in search_start..=max_start` loop of `seek`, with the
number of remaining candidates as fuel: return the first index in the
range that matches under `rel`. -/
def scanRange (rel : List Char → List Char → Bool)
    (lines pattern : List (List Char)) : Nat → Nat → Option Nat
  | _, 0 => none
  | idx, Nat.succ n =>
    if matchesAt rel lines pattern idx then some idx
    else scanRange rel lines pattern (idx + 1) n

/-- Embedding of `PatchContextMatcher::seek` (matcher.rs lines 10-73):
empty pattern returns the cursor; a pattern longer than the file fails;
otherwise the four relation loops run in order over
`search_start..=max_start`. -/
def seek (lines pattern : List (List Char)) (start : Nat) (eof : Bool) : Option Nat :=
  if pattern = [] then some start
  else if lines.length < pattern.length then none
  else
    let searchStart :=
      if eof && decide (pattern.length ≤ lines.length) then
        lines.length - pattern.length
      else start
    let maxStart := lines.length - pattern.length
    let fuel := maxStart + 1 - searchStart
    match scanRange lineEqExact lines pattern searchStart fuel with
    | some i => some i
    | none =>
      match scanRange lineEqTrimEnd lines pattern searchStart fuel with
      | some i => some i
      | none =>
        match scanRange lineEqTrim lines pattern searchStart fuel with
        | some i => some i
        | none => scanRange lineEqNorm lines pattern searchStart fuel

/-- The four fallback relations in the order the claim states them. -/
def fallbackRelations : List (List Char → List Char → Bool) :=
  [lineEqExact, lineEqTrimEnd, lineEqTrim, lineEqNorm]

/-- Specification-shaped search: the first relation (in order) that
matches anywhere in `start..=max_start` determines the result, and the
result is the earliest matching index for that relation. -/
def seekSpec (lines pattern : List (List Char)) (start : Nat) : Option Nat :=
  if pattern.length ≤ lines.length then
    fallbackRelations.findSome? (fun rel =>
      (List.range' start (lines.length - pattern.length + 1 - start)).find?
        (fun idx => matchesAt rel lines pattern idx))
  else none

/-! ## list_files pagination rendering

Embedding of the pagination-summary logic of `render_list_dir_output`
(`src/agent/runloop/tool_output/files.rs` lines 104-140).  The payload
fields `count`, `total`, `page` are `u64` values (`Nat` here) and
`has_more` a flag; the function renders an optional summary line.  Rust
integer division by zero is a panic, modelled as an `Except.error`
carrying the Rust panic message.
-/

/-- Embedding of the summary computation of `render_list_dir_output`:
`none` means no summary line is rendered; the error case is the Rust
panic raised by `(total + count - 1) / count` when `count` is zero. -/
def renderListDirSummary (count total page : Nat) (hasMore : Bool) :
    Except String (Option String) :=
  if count > 0 || total > 0 then
    if total > count then
      if hasMore then
        if count = 0 then
          Except.error "attempt to divide by zero"
        else
          Except.ok (some ("  Page " ++ toString page ++ " of ~" ++
            toString ((total + count - 1) / count) ++ " (" ++ toString count ++
            " items per page, " ++ toString total ++ " total)"))
      else
        Except.ok (some ("  Page " ++ toString page ++ " (" ++ toString count ++
          " items, " ++ toString total ++ " total)"))
    else
      Except.ok (some ("  " ++ toString count ++ " items"))
  else
    Except.ok none

/-! ## Workspace trust synchronisation

Embedding of `ensure_workspace_trust_level_silent` and the persistence
action of `persist_trust_decision` (`src/workspace_trust.rs` lines
69-121).  The loaded dotfile is modelled as a lookup from workspace key
to recorded level; the second component of the result is the entry
`persist_trust_decision` writes to the dotfile (`none` when the dotfile
is left untouched).
-/

/-- The two workspace trust levels of `WorkspaceTrustLevel`. -/
inductive WorkspaceTrustLevel where
  | toolsPolicy
  | fullAuto
deriving DecidableEq, Repr

/-- The result type `WorkspaceTrustSyncOutcome` (workspace_trust.rs
lines 20-27). -/
inductive WorkspaceTrustSyncOutcome where
  | alreadyMatches (level : WorkspaceTrustLevel)
  | upgraded (previous : Option WorkspaceTrustLevel) (next : WorkspaceTrustLevel)
  | skippedDowngrade (level : WorkspaceTrustLevel)
deriving DecidableEq, Repr

/-- Embedding of `ensure_workspace_trust_level_silent` (workspace_trust.rs
lines 69-99): look up the recorded level for the canonical workspace key
and decide the outcome; the second component is the dotfile write
performed by `persist_trust_decision`, `none` when nothing is persisted. -/
def ensureWorkspaceTrustLevelSilent
    (entries : String → Option WorkspaceTrustLevel)
    (workspaceKey : String) (desiredLevel : WorkspaceTrustLevel) :
    WorkspaceTrustSyncOutcome × Option (String × WorkspaceTrustLevel) :=
  match entries workspaceKey with
  | some level =>
    if level = desiredLevel then
      (.alreadyMatches level, none)
    else if level = .fullAuto ∧ desiredLevel = .toolsPolicy then
      (.skippedDowngrade level, none)
    else
      (.upgraded (some level) desiredLevel, some (workspaceKey, desiredLevel))
  | none => (.upgraded none desiredLevel, some (workspaceKey, desiredLevel))

/-! ## Terminal command validation

Embedding of `CommandTool::validate_command_segments`,
`CommandTool::validate_script` and the validation part of
`CommandTool::prepare_invocation` (`vtcode-core/src/tools/command.rs`
lines 72-140).  `Tool::execute` calls `prepare_invocation` before
`execute_terminal_command`, so a validation error means no process is
ever spawned.
-/

/-- The `dangerous_commands` array of `validate_command_segments`. -/
def dangerousCommandNames : List (List Char) :=
  [chars "rm", chars "rmdir", chars "del", chars "format",
   chars "fdisk", chars "mkfs", chars "dd"]

/-- Embedding of `validate_command_segments` (command.rs lines 108-125):
a literal dangerous program name is denied first, then the joined
command is checked for dangerous patterns; a program containing
whitespace skips the segment checks. -/
def validateCommandSegments (command : List (List Char)) : Except (List Char) Unit :=
  let program := command.headD []
  if program.any rustIsWhitespace then
    Except.ok ()
  else if dangerousCommandNames.any (fun d => program = d) then
    Except.error (chars "Dangerous command not allowed: " ++ program)
  else
    let fullCommand := List.intercalate [' '] command
    if containsSub fullCommand (chars "rm -rf /") ||
       containsSub fullCommand (chars "sudo rm") then
      Except.error (chars "Potentially dangerous command pattern detected")
    else
      Except.ok ()

/-- Embedding of `validate_script` (command.rs lines 127-140). -/
def validateScript (script : List Char) : Except (List Char) Unit :=
  if containsSub script (chars "rm -rf /") ||
     containsSub script (chars "sudo rm") ||
     containsSub script (chars "format") ||
     containsSub script (chars "fdisk") ||
     containsSub script (chars "mkfs") then
    Except.error (chars "Potentially dangerous command pattern detected in shell command")
  else
    Except.ok ()

/-- Embedding of the validation prefix of `prepare_invocation`
(command.rs lines 72-77): empty command check, then segment validation;
any error here returns before a process can be spawned. -/
def prepareInvocationValidation (command : List (List Char)) : Except (List Char) Unit :=
  if command = [] then
    Except.error (chars "Command cannot be empty")
  else
    validateCommandSegments command

/-! ## Sandboxed code executor: JSON sentinel extraction

Embedding of `CodeExecutor::extract_json_result` and the result
assembly tail of `CodeExecutor::execute`
(`vtcode-core/src/exec/code_executor.rs` lines 149-236 and 255-285).
`serde_json::from_str` is an external collaborator, modelled as an
abstract partial parser `parse`; the JSON value type is left abstract
as well.
-/

/-- A JSON value, as far as the executor needs one. -/
inductive Json where
  | null
  | bool (b : Bool)
  | num (n : Int)
  | str (s : List Char)
  | arr (elems : List Json)
  | obj (fields : List (List Char × Json))

/-- The `__JSON_RESULT__` start marker. -/
def jsonStartMarker : List Char :=
  chars "__JSON_RESULT__"

/-- The `__END_JSON__` end marker. -/
def jsonEndMarker : List Char :=
  chars "__END_JSON__"

/-- Embedding of `extract_json_result` (code_executor.rs lines 255-285):
absent start marker, absent end marker after it, or unparsable text
between the markers all yield `Ok(None)`; no branch returns an error. -/
def extractJsonResult (parse : List Char → Option Json) (stdout : List Char) :
    Except String (Option Json) :=
  if containsSub stdout jsonStartMarker = false then
    Except.ok none
  else
    match findSub stdout jsonStartMarker with
    | none => Except.ok none
    | some pos =>
      let start := pos + jsonStartMarker.length
      match findSub (stdout.drop start) jsonEndMarker with
      | none => Except.ok none
      | some rel =>
        let jsonStr := trimChars ((stdout.drop start).take rel)
        match parse jsonStr with
        | some value => Except.ok (some value)
        | none => Except.ok none

/-- The `ExecutionResult` record (`vtcode-core/src/exec`, spec §3). -/
structure ExecutionResult where
  exit_code : Int
  stdout : List Char
  stderr : List Char
  json_result : Option Json
  duration_ms : Nat

/-- The tail of `CodeExecutor::execute` (code_executor.rs lines 210-235):
after the child process has produced its captured output, extract the
sentinel JSON (propagating an error with `?`) and assemble the
`ExecutionResult`. -/
def executeFinish (parse : List Char → Option Json)
    (stdoutB stderrB : List Char) (exitCode : Int) (durationMs : Nat) :
    Except String ExecutionResult := do
  let jsonResult ← extractJsonResult parse stdoutB
  Except.ok {
    exit_code := exitCode,
    stdout := stdoutB,
    stderr := stderrB,
    json_result := jsonResult,
    duration_ms := durationMs }

/-! ## Inter-agent RPC client

Embedding of `AcpClient::send_request`, `AcpClient::call_sync` and
`AcpClient::ping` together with the registry operations they use
(`vtcode-acp-client/src/client.rs` lines 73-106, 152-199, 229-257 and
`vtcode-acp-client/src/discovery.rs` lines 73-114).  The HTTP layer is
an external collaborator: a completed request is represented by its
status code and the outcome of reading the body; `serde_json` parsing is
an abstract `parse` with an error description on failure.  The registry
`HashMap` is an association list with distinct keys, updated in place.
-/

/-- The `AcpError` enum (vtcode-acp-client/src/error.rs lines 10-38). -/
inductive AcpError where
  | agentNotFound (message : String)
  | networkError (message : String)
  | serializationError (message : String)
  | invalidRequest (message : String)
  | remoteError (agentId : String) (message : String) (code : Option Int)
  | timeout (message : String)
  | configError (message : String)
  | internal (message : String)
deriving DecidableEq, Repr

/-- The `AgentInfo` record (discovery.rs lines 12-38). -/
structure AgentInfo where
  id : String
  name : String
  base_url : String
  description : Option String
  capabilities : List String
  metadata : List (String × Json)
  online : Bool
  last_seen : Option String

/-- Embedding of the response handling of `send_request` (client.rs
lines 159-198), given a completed HTTP POST: the status code, the
outcome of reading the response body (`response.text()` can itself
fail, becoming a `NetworkError`), and the JSON parser. -/
def sendRequestStatus (baseUrl : String) (status : Nat)
    (bodyRead : Except String String) (parse : String → Except String Json) :
    Except AcpError Json :=
  if status = 200 || status = 202 then
    match bodyRead with
    | Except.error e => Except.error (.networkError e)
    | Except.ok body =>
      if body = "" then Except.ok Json.null
      else
        match parse body with
        | Except.ok value => Except.ok value
        | Except.error e =>
          Except.error (.serializationError
            ("Failed to parse response: " ++ e ++ ": " ++ body))
  else if status = 408 then
    Except.error (.timeout "Request to remote agent timed out")
  else if status = 404 then
    Except.error (.agentNotFound "Remote agent endpoint not found")
  else
    let body := match bodyRead with
      | Except.ok b => b
      | Except.error _ => ""
    Except.error (.remoteError baseUrl
      ("HTTP " ++ toString status ++ ": " ++ body) (some (Int.ofNat status)))

/-- Embedding of `call_sync` (client.rs lines 73-106) after the target
agent was found in the registry and the HTTP POST completed: the result
is `send_request` on the agent's base URL. -/
def callSyncCompleted (agent : AgentInfo) (status : Nat)
    (bodyRead : Except String String) (parse : String → Except String Json) :
    Except AcpError Json :=
  sendRequestStatus agent.base_url status bodyRead parse

/-- Embedding of `AgentRegistry::find` (discovery.rs lines 73-79): look
the agent up by id, failing with `AgentNotFound` when absent. -/
def regFind (reg : List (String × AgentInfo)) (agentId : String) :
    Except AcpError AgentInfo :=
  match reg.find? (fun p => p.1 = agentId) with
  | some p => Except.ok p.2
  | none => Except.error (.agentNotFound agentId)

/-- Embedding of `AgentRegistry::update_status` (discovery.rs lines
105-114): when the agent is present, set its `online` flag and refresh
`last_seen` to the current timestamp; otherwise fail with
`AgentNotFound` and leave the registry unchanged. -/
def regUpdateStatus (reg : List (String × AgentInfo)) (agentId : String)
    (online : Bool) (now : String) :
    Except AcpError Unit × List (String × AgentInfo) :=
  if (reg.find? (fun p => p.1 = agentId)).isSome then
    (Except.ok (),
     reg.map (fun p =>
       if p.1 = agentId then
         (p.1, { p.2 with online := online, last_seen := some now })
       else p))
  else
    (Except.error (.agentNotFound agentId), reg)

/-- Embedding of `AcpClient::ping` (client.rs lines 229-257): find the
agent (failing with `AgentNotFound` when unregistered), then interpret
the completed GET `/health`: `healthResponse = some status` is a
received response, `none` a transport failure.  Only a success response
updates the registry to online; a non-success response leaves the
registry untouched; a transport failure marks the agent offline.  The
`.ok()` on `update_status` discards its error. -/
def ping (reg : List (String × AgentInfo)) (agentId : String)
    (healthResponse : Option Nat) (now : String) :
    Except AcpError Bool × List (String × AgentInfo) :=
  match regFind reg agentId with
  | Except.error _ => (Except.error (.agentNotFound agentId), reg)
  | Except.ok _ =>
    match healthResponse with
    | some status =>
      let isHealthy := 200 ≤ status && status < 300
      if isHealthy then
        (Except.ok true, (regUpdateStatus reg agentId true now).2)
      else
        (Except.ok false, reg)
    | none =>
      (Except.ok false, (regUpdateStatus reg agentId false now).2)

/-! ## Atomic file write

Embedding of `write_atomic` and `temporary_path`
(`vtcode-core/src/tools/editing/patch/applicator.rs` lines 223-305).
The filesystem is an external collaborator: an `FsEnv` fixes the outcome
of each filesystem call in program order, and `writeAtomic` returns the
sequence of calls it actually performed together with its result, so
ordering ("write, flush, then rename"), the retry, and the best-effort
temp-file removal are all observable.  `temporary_path` is given the
clock reading (`nanos`) and process id as arguments.
-/

/-- Outcome of one fallible filesystem call. -/
inductive IoOutcome where
  | ok
  | err (e : String)
deriving DecidableEq, Repr

/-- Outcome of the first rename, distinguishing the
`ErrorKind::AlreadyExists` failure the code recovers from. -/
inductive RenameOutcome where
  | ok
  | errAlreadyExists (e : String)
  | errOther (e : String)
deriving DecidableEq, Repr

/-- The filesystem responses `write_atomic` may consume, in program
order.  Later fields are irrelevant when an earlier call fails. -/
structure FsEnv where
  createDirAll : IoOutcome
  createTemp : IoOutcome
  writeAll : IoOutcome
  flush : IoOutcome
  renameFirst : RenameOutcome
  removeTarget : IoOutcome
  renameRetry : IoOutcome
deriving DecidableEq, Repr

/-- The filesystem calls `write_atomic` performs, as observable events. -/
inductive FsEvent where
  | createDirAll
  | createTemp
  | writeTemp
  | flushTemp
  | rename
  | removeTarget
  | removeTempBestEffort
deriving DecidableEq, Repr

/-- `PatchError::Io { action, path, source }`. -/
inductive PatchApplyError where
  | io (action : String) (path : String) (source : String)
deriving DecidableEq, Repr

/-- Embedding of `temporary_path` (applicator.rs lines 286-305): the
temp file lives in the target's parent (`.` when the target has none),
named `.{basename}.{pid}.{nanos}.tmp` with `vtcode-patch` replacing a
missing basename. -/
def temporaryPath (parent fileName : Option String) (pid nanos : Nat) : String :=
  (parent.getD ".") ++ "/." ++ (fileName.getD "vtcode-patch") ++ "." ++
    toString pid ++ "." ++ toString nanos ++ ".tmp"

/-- The part of `write_atomic` after directory creation (applicator.rs
lines 234-283): create the temp file, write, flush, rename; on
`AlreadyExists` delete the target and retry the rename once; on another
rename failure best-effort remove the temp file. -/
def writeAtomicCore (target tempPath : String) (env : FsEnv) :
    List FsEvent × Except PatchApplyError Unit :=
  match env.createTemp with
  | .err e => ([.createTemp], Except.error (.io "create" tempPath e))
  | .ok =>
    match env.writeAll with
    | .err e => ([.createTemp, .writeTemp], Except.error (.io "write" tempPath e))
    | .ok =>
      match env.flush with
      | .err e =>
        ([.createTemp, .writeTemp, .flushTemp], Except.error (.io "flush" tempPath e))
      | .ok =>
        match env.renameFirst with
        | .ok => ([.createTemp, .writeTemp, .flushTemp, .rename], Except.ok ())
        | .errAlreadyExists _ =>
          match env.removeTarget with
          | .err e =>
            ([.createTemp, .writeTemp, .flushTemp, .rename, .removeTarget],
             Except.error (.io "delete" target e))
          | .ok =>
            match env.renameRetry with
            | .ok =>
              ([.createTemp, .writeTemp, .flushTemp, .rename, .removeTarget, .rename],
               Except.ok ())
            | .err e =>
              ([.createTemp, .writeTemp, .flushTemp, .rename, .removeTarget, .rename],
               Except.error (.io "rename" target e))
        | .errOther e =>
          ([.createTemp, .writeTemp, .flushTemp, .rename, .removeTempBestEffort],
           Except.error (.io "rename" target e))

/-- Embedding of `write_atomic` (applicator.rs lines 223-284): create
the parent directory when the target has one, then run the core. -/
def writeAtomic (target : String) (parent fileName : Option String)
    (pid nanos : Nat) (env : FsEnv) :
    List FsEvent × Except PatchApplyError Unit :=
  let tempPath := temporaryPath parent fileName pid nanos
  match parent with
  | some parentDir =>
    match env.createDirAll with
    | .err e =>
      ([.createDirAll], Except.error (.io "create directories" parentDir e))
    | .ok =>
      let core := writeAtomicCore target tempPath env
      (FsEvent.createDirAll :: core.1, core.2)
  | none => writeAtomicCore target tempPath env

/-! ## System prompt composition and token accounting

Embedding of `compose_system_instruction_text`
(`vtcode-core/src/prompts/system.rs` lines 175-260) and
`ContextManager::build_system_prompt`
(`src/agent/runloop/unified/context_manager.rs` lines 94-111).  The
markdown base prompt read from disk is a parameter; the instruction
bundle loader (`crate::instructions`) and the run-loop wiring that
constructs the `ContextManager` are not under src/ and are modelled from
the spec below.
-/

/-- The `commands` policy section of `VTCodeConfig`. -/
structure CommandsConfig where
  allow_list : List String
  deny_list : List String

/-- The `pty` section of `VTCodeConfig`. -/
structure PtyConfig where
  enabled : Bool
  default_rows : Nat
  default_cols : Nat
  command_timeout_seconds : Nat

/-- The `security` section of `VTCodeConfig`. -/
structure SecurityConfig where
  human_in_the_loop : Bool

/-- The policy configuration fields `compose_system_instruction_text`
reads from `vtcode.toml`. -/
structure VTCodeConfig where
  security : SecurityConfig
  commands : CommandsConfig
  pty : PtyConfig

/-- `InstructionScope` (crate `instructions`): the origin of one
instruction file. -/
inductive InstructionScope where
  | globalScope
  | workspaceScope
  | customScope
deriving DecidableEq, Repr

/-- One loaded instruction segment; `displayPath` is the result of
`format_instruction_path` on its source path. -/
structure InstructionSegment where
  scope : InstructionScope
  displayPath : String
  contents : String

/-- `InstructionBundle` (crate `instructions`): the ordered segments and
whether content was truncated. -/
structure InstructionBundle where
  segments : List InstructionSegment
  truncated : Bool

/-- Rust `str::trim` on a Lean string. -/
def trimString (s : String) : String :=
  String.mk (trimChars s.data)

/-- The scope names printed by `compose_system_instruction_text`. -/
def scopeName : InstructionScope → String
  | .globalScope => "global"
  | .workspaceScope => "workspace"
  | .customScope => "custom"

/-- The `## CONFIGURATION AWARENESS` block
(`compose_system_instruction_text`, system.rs lines 184-222), built by
the same sequence of `push_str` calls as the source. -/
def configAwarenessBlock (cfg : VTCodeConfig) : String :=
  "\n\n## CONFIGURATION AWARENESS\n" ++
  "The agent is configured with the following policies from vtcode.toml:\n\n" ++
  (if cfg.security.human_in_the_loop then
    "- **Human-in-the-loop**: Required for critical actions\n"
   else "") ++
  (if cfg.commands.allow_list ≠ [] then
    "- **Allowed commands**: " ++ toString cfg.commands.allow_list.length ++
      " commands in allow list\n"
   else "") ++
  (if cfg.commands.deny_list ≠ [] then
    "- **Denied commands**: " ++ toString cfg.commands.deny_list.length ++
      " commands in deny list\n"
   else "") ++
  (if cfg.pty.enabled then
    "- **PTY functionality**: Enabled\n" ++
    "- **Default terminal size**: " ++ toString cfg.pty.default_rows ++
      " rows × " ++ toString cfg.pty.default_cols ++ " columns\n" ++
    "- **PTY command timeout**: " ++ toString cfg.pty.command_timeout_seconds ++
      " seconds\n"
   else "- **PTY functionality**: Disabled\n") ++
  "\n**IMPORTANT**: Respect these configuration policies. Commands not in the allow list will require user confirmation. Always inform users when actions require confirmation due to security policies.\n"

/-- One numbered segment entry of the instruction hierarchy block
(system.rs lines 233-250). -/
def segmentEntry (index : Nat) (seg : InstructionSegment) : String :=
  "### " ++ toString (index + 1) ++ ". " ++ seg.displayPath ++ " (" ++
    scopeName seg.scope ++ ")\n\n" ++ trimString seg.contents ++ "\n"

/-- The `## AGENTS.MD INSTRUCTION HIERARCHY` block (system.rs lines
226-257), listing the bundle's segments in order with a trailing
truncation note when the bundle was truncated. -/
def hierarchyBlock (bundle : InstructionBundle) : String :=
  "\n\n## AGENTS.MD INSTRUCTION HIERARCHY\n" ++
  "Instructions are listed from lowest to highest precedence. When conflicts exist, defer to the later entries.\n\n" ++
  String.join (bundle.segments.enum.map (fun p => segmentEntry p.1 p.2)) ++
  (if bundle.truncated then
    "\n_Note: instruction content was truncated due to size limits. Review the source files for full details._"
   else "")

/-- Embedding of `compose_system_instruction_text` (system.rs lines
175-260): start from the base prompt, append the configuration
awareness block when a config is present, then the instruction
hierarchy block when a bundle was loaded. -/
def composeSystemInstructionText (basePrompt : String) (cfg : Option VTCodeConfig)
    (bundle : Option InstructionBundle) : String :=
  (basePrompt ++
    (match cfg with
     | some c => configAwarenessBlock c
     | none => "")) ++
  (match bundle with
   | some b => hierarchyBlock b
   | none => "")

/-- Truncate a string to a byte cap.  Modelled from the spec: the
instruction loader truncates each file to its own byte cap; UTF-8 bytes
are modelled as characters. -/
def truncateToCap (cap : Nat) (s : String) : String :=
  String.mk (s.data.take cap)

/-- Modelled from the spec: `read_instruction_bundle` (crate
`instructions`, not under src/) produces the instruction stack in order
global → workspace → custom, each file's contents truncated to its own
byte cap; the inputs are (display path, raw contents) pairs per scope. -/
def specInstructionBundle
    (globalCap workspaceCap customCap : Nat)
    (globalFiles workspaceFiles customFiles : List (String × String))
    (truncated : Bool) : InstructionBundle :=
  { segments :=
      globalFiles.map (fun p =>
        { scope := .globalScope, displayPath := p.1,
          contents := truncateToCap globalCap p.2 }) ++
      workspaceFiles.map (fun p =>
        { scope := .workspaceScope, displayPath := p.1,
          contents := truncateToCap workspaceCap p.2 }) ++
      customFiles.map (fun p =>
        { scope := .customScope, displayPath := p.1,
          contents := truncateToCap customCap p.2 }),
    truncated := truncated }

/-- The `ContextComponent` enum of the token budget
(`vtcode-core/src/core/token_budget`, spec §3). -/
inductive ContextComponent where
  | systemPrompt
  | userTurn
  | assistantTurn
  | toolResponse
  | projectDoc
  | instructions
deriving DecidableEq, Repr

/-- The fields of `ContextManager` that `build_system_prompt` reads. -/
structure ContextManager where
  base_system_prompt : String
  token_budget_enabled : Bool

/-- Embedding of `ContextManager::build_system_prompt`
(context_manager.rs lines 94-111): return the stored base prompt and,
when token budgeting is enabled, count it into `SystemPrompt` under the
label `base_system_{retry_attempts}` (the recorded count event is the
second component; `attempt_history` is unused by the source). -/
def buildSystemPrompt (cm : ContextManager) (retryAttempts : Nat) :
    String × Option (ContextComponent × String) :=
  (cm.base_system_prompt,
   if cm.token_budget_enabled then
     some (.systemPrompt, "base_system_" ++ toString retryAttempts)
   else none)

/-- Modelled from the spec: the run-loop driver (not under src/)
constructs the `ContextManager` with `base_system_prompt` set to
`compose_system_instruction_text` of the base prompt, policy config and
loaded instruction bundle. -/
def mkContextManager (basePrompt : String) (cfg : Option VTCodeConfig)
    (bundle : Option InstructionBundle) (budgetEnabled : Bool) : ContextManager :=
  { base_system_prompt := composeSystemInstructionText basePrompt cfg bundle,
    token_budget_enabled := budgetEnabled }

/-! ## Theorems

The claims, settled against the embeddings above.
-/

/-- Claim C2, counterexample: the path `a..b` contains the substring `..`
yet passes validation, because `a..b` is a single normal path component,
not a `ParentDir` component; so the validator does not reject every
string containing `..`. -/
theorem c2_counterexample :
    validatePatchPath (chars "a..b") = Except.ok () ∧
    containsSub (chars "a..b") (chars "..") = true := by
  constructor <;> rfl

/-- Claim C2 (amended): the patch path validator accepts a path exactly
when it is non-empty, does not start with `/`, contains none of the
control characters `\0`, `\r`, `\n`, `\t`, has no `..` path component,
and contains no `//`; in particular every empty, absolute,
control-character, `..`-component or `//` path is rejected, and a path
passing validation has none of these. -/
theorem c2_path_validator_characterization (raw : List Char) :
    validatePatchPath raw = Except.ok () ↔
      (raw ≠ [] ∧
       (∀ c ∈ raw, ¬(c = '\x00' ∨ c = '\r' ∨ c = '\n' ∨ c = '\t')) ∧
       raw.head? ≠ some '/' ∧
       hasParentSegment raw = false ∧
       containsSub raw ['/', '/'] = false) := by
  have hany :
      (raw.any (fun c => c = '\x00' || c = '\r' || c = '\n' || c = '\t') = false) ↔
        (∀ c ∈ raw, ¬(c = '\x00' ∨ c = '\r' ∨ c = '\n' ∨ c = '\t')) := by
    simp only [List.any_eq_false, Bool.or_eq_true, decide_eq_true_eq]
    constructor
    · intro h c hc
      have := h c hc
      tauto
    · intro h c hc
      have := h c hc
      tauto
  rw [← hany]
  unfold validatePatchPath
  split_ifs with h1 h2 h3 h4 h5 <;> simp_all

theorem scanRange_eq_find (rel : List Char → List Char → Bool)
    (lines pattern : List (List Char)) (n : Nat) :
    ∀ idx, scanRange rel lines pattern idx n =
      (List.range' idx n).find? (fun i => matchesAt rel lines pattern i) := by
  induction n with
  | zero => intro idx; rfl
  | succ n ih =>
    intro idx
    rw [List.range'_succ]
    by_cases h : matchesAt rel lines pattern idx
    · simp [scanRange, List.find?, h]
    · simp [scanRange, List.find?, h, ih]

/-- Claim C1: for every file line array and every non-empty pattern, the
cursor-based search (`eof = false`) tries the four fallback equivalence
relations in order — exact, `trim_end`, full `trim`, normalised — over
the candidate range starting at the cursor, and the first relation that
yields a match determines the returned start index. -/
theorem c1_matcher_four_fallbacks (lines pattern : List (List Char)) (start : Nat)
    (hne : pattern ≠ []) :
    seek lines pattern start false = seekSpec lines pattern start := by
  unfold seek seekSpec
  rw [if_neg hne]
  by_cases hlen : lines.length < pattern.length
  · rw [if_pos hlen, if_neg (show ¬pattern.length ≤ lines.length by omega)]
  · rw [if_neg hlen, if_pos (show pattern.length ≤ lines.length by omega)]
    simp only [Bool.false_and, Bool.false_eq_true, if_false, fallbackRelations,
      List.findSome?, scanRange_eq_find]
    cases List.find? (fun i => matchesAt lineEqExact lines pattern i)
        (List.range' start (lines.length - pattern.length + 1 - start)) with
    | some i => rfl
    | none =>
      cases List.find? (fun i => matchesAt lineEqTrimEnd lines pattern i)
          (List.range' start (lines.length - pattern.length + 1 - start)) with
      | some i => rfl
      | none =>
        cases List.find? (fun i => matchesAt lineEqTrim lines pattern i)
            (List.range' start (lines.length - pattern.length + 1 - start)) with
        | some i => rfl
        | none =>
          cases List.find? (fun i => matchesAt lineEqNorm lines pattern i)
              (List.range' start (lines.length - pattern.length + 1 - start)) with
          | some i => rfl
          | none => rfl

/-- Claim C1, witness: the spec's fuzzy-whitespace scenario — a file line
with an en-dash is matched by the ASCII-dash pattern via the fourth
(normalisation) relation at index 0, and the search agrees with the
specification-shaped description. -/
theorem c1_matcher_four_fallbacks_witness :
    seek [chars "foo–bar"] [chars "foo-bar"] 0 false = some 0 ∧
    seek [chars "foo–bar"] [chars "foo-bar"] 0 false =
      seekSpec [chars "foo–bar"] [chars "foo-bar"] 0 :=
  ⟨by decide, c1_matcher_four_fallbacks _ _ _ (by decide)⟩

/-- Claim C9: the claim says an input with `count = 0` is treated as "no
more pages" and no division is evaluated; the code instead evaluates
`(total + count - 1) / count` on the payload `count = 0`, `total = 5`,
`page = 1`, `has_more = true`, an integer division by zero that panics. -/
theorem c9_pagination_division_by_zero :
    renderListDirSummary 0 5 1 true = Except.error "attempt to divide by zero" := by
  rfl

/-- Claim C4: for a workspace recorded as `FullAuto`, requesting
`ToolsPolicy` silently returns `SkippedDowngrade(FullAuto)` and writes
nothing to the dotfile; more generally no call on such a workspace ever
persists an entry, so the recorded `FullAuto` level is never silently
downgraded. -/
theorem c4_trust_never_silently_downgraded
    (entries : String → Option WorkspaceTrustLevel) (workspaceKey : String)
    (h : entries workspaceKey = some .fullAuto) :
    ensureWorkspaceTrustLevelSilent entries workspaceKey .toolsPolicy =
      (.skippedDowngrade .fullAuto, none) ∧
    ∀ desiredLevel,
      (ensureWorkspaceTrustLevelSilent entries workspaceKey desiredLevel).2 = none := by
  constructor
  · simp [ensureWorkspaceTrustLevelSilent, h]
  · intro desiredLevel
    cases desiredLevel <;> simp [ensureWorkspaceTrustLevelSilent, h]

/-- Claim C4, witness: a concrete one-entry dotfile recording `FullAuto`
for key `ws`: the silent sync to `ToolsPolicy` is skipped and nothing is
persisted. -/
theorem c4_trust_never_silently_downgraded_witness :
    ensureWorkspaceTrustLevelSilent
        (fun k => if k = "ws" then some .fullAuto else none) "ws" .toolsPolicy =
      (.skippedDowngrade .fullAuto, none) ∧
    (ensureWorkspaceTrustLevelSilent
        (fun k => if k = "ws" then some .fullAuto else none) "ws" .fullAuto).2 = none := by
  have h := c4_trust_never_silently_downgraded
    (fun k => if k = "ws" then some .fullAuto else none) "ws" (by simp)
  exact ⟨h.1, h.2 .fullAuto⟩

/-- Claim C5, counterexample: the command `["rm","-rf","/"]` is rejected,
but with the literal-name error `Dangerous command not allowed: rm` —
the dangerous-name check fires before the pattern check — not with
`Potentially dangerous command pattern detected` as the claim states. -/
theorem c5_counterexample :
    prepareInvocationValidation [chars "rm", chars "-rf", chars "/"] =
      Except.error (chars "Dangerous command not allowed: rm") ∧
    chars "Dangerous command not allowed: rm" ≠
      chars "Potentially dangerous command pattern detected" := by
  constructor
  · rfl
  · decide

/-- Claim C5 (amended): `["rm","-rf","/"]` fails validation before any
process is spawned, with error `Dangerous command not allowed: rm`
(the literal-name check precedes the pattern check); in general a
whitespace-free program named `rm`, `rmdir`, `del`, `format`, `fdisk`,
`mkfs` or `dd` is denied with that literal-name error, a command whose
joined text contains `rm -rf /` or `sudo rm` is denied with the pattern
error, and a shell script containing `rm -rf /`, `sudo rm`, `format`,
`fdisk` or `mkfs` is denied by the script check. -/
theorem c5_dangerous_commands_denied :
    (prepareInvocationValidation [chars "rm", chars "-rf", chars "/"] =
      Except.error (chars "Dangerous command not allowed: rm")) ∧
    (∀ command : List (List Char),
      (command.headD []).any rustIsWhitespace = false →
      (command.headD []) ∈ dangerousCommandNames →
      validateCommandSegments command =
        Except.error (chars "Dangerous command not allowed: " ++ command.headD [])) ∧
    (∀ command : List (List Char),
      (command.headD []).any rustIsWhitespace = false →
      (command.headD []) ∉ dangerousCommandNames →
      (containsSub (List.intercalate [' '] command) (chars "rm -rf /") = true ∨
       containsSub (List.intercalate [' '] command) (chars "sudo rm") = true) →
      validateCommandSegments command =
        Except.error (chars "Potentially dangerous command pattern detected")) ∧
    (∀ script : List Char,
      (containsSub script (chars "rm -rf /") = true ∨
       containsSub script (chars "sudo rm") = true ∨
       containsSub script (chars "format") = true ∨
       containsSub script (chars "fdisk") = true ∨
       containsSub script (chars "mkfs") = true) →
      validateScript script =
        Except.error (chars "Potentially dangerous command pattern detected in shell command")) := by
  refine ⟨rfl, ?_, ?_, ?_⟩
  · intro command hws hmem
    have hmem2 : dangerousCommandNames.any (fun d => command.headD [] = d) = true := by
      rw [List.any_eq_true]
      exact ⟨command.headD [], hmem, by simp⟩
    simp only [validateCommandSegments]
    rw [if_neg (by rw [hws]; exact Bool.false_ne_true), if_pos hmem2]
  · intro command hws hmem hpat
    have hmem2 : dangerousCommandNames.any (fun d => command.headD [] = d) = false := by
      rw [Bool.eq_false_iff, Ne, List.any_eq_true]
      rintro ⟨d, hd, heq⟩
      rw [decide_eq_true_eq] at heq
      exact hmem (heq ▸ hd)
    simp only [validateCommandSegments]
    rw [if_neg (by rw [hws]; exact Bool.false_ne_true),
      if_neg (by rw [hmem2]; exact Bool.false_ne_true),
      if_pos (show (containsSub (List.intercalate [' '] command) (chars "rm -rf /") ||
        containsSub (List.intercalate [' '] command) (chars "sudo rm")) = true by
          rcases hpat with h | h <;> simp [h])]
  · intro script hpat
    have hpat' : (containsSub script (chars "rm -rf /") ||
        containsSub script (chars "sudo rm") ||
        containsSub script (chars "format") ||
        containsSub script (chars "fdisk") ||
        containsSub script (chars "mkfs")) = true := by
      rcases hpat with h | h | h | h | h <;> simp [h]
    simp [validateScript, hpat']

/-- Claim C5, witness: concrete denials — the literal name `dd`, the
pattern `sudo rm` inside a joined command, and a script containing
`mkfs` — via the amended theorem. -/
theorem c5_dangerous_commands_denied_witness :
    validateCommandSegments [chars "dd", chars "if=/dev/zero"] =
      Except.error (chars "Dangerous command not allowed: " ++ chars "dd") ∧
    validateCommandSegments [chars "sudo", chars "rm", chars "-r", chars "x"] =
      Except.error (chars "Potentially dangerous command pattern detected") ∧
    validateScript (chars "mkfs.ext4 /dev/sda1") =
      Except.error (chars "Potentially dangerous command pattern detected in shell command") :=
  ⟨c5_dangerous_commands_denied.2.1 _ (by decide) (by decide),
   c5_dangerous_commands_denied.2.2.1 _ (by decide) (by decide) (Or.inr (by decide)),
   c5_dangerous_commands_denied.2.2.2 _ (Or.inr (Or.inr (Or.inr (Or.inr (by decide)))))⟩

/-- Claim C10: `extract_json_result` never returns an error; it returns
`None` whenever the start marker is absent, the end marker does not
follow it, or the text between the markers does not parse as JSON; and
in every such case `execute` still assembles a successful
`ExecutionResult` with `json_result = None`. -/
theorem c10_sentinel_extraction_lenient (parse : List Char → Option Json)
    (stdoutB stderrB : List Char) (exitCode : Int) (durationMs : Nat) :
    (∃ r, extractJsonResult parse stdoutB = Except.ok r) ∧
    (containsSub stdoutB jsonStartMarker = false →
      extractJsonResult parse stdoutB = Except.ok none) ∧
    (∀ pos, findSub stdoutB jsonStartMarker = some pos →
      findSub (stdoutB.drop (pos + jsonStartMarker.length)) jsonEndMarker = none →
      extractJsonResult parse stdoutB = Except.ok none) ∧
    (∀ pos rel, findSub stdoutB jsonStartMarker = some pos →
      findSub (stdoutB.drop (pos + jsonStartMarker.length)) jsonEndMarker = some rel →
      parse (trimChars ((stdoutB.drop (pos + jsonStartMarker.length)).take rel)) = none →
      extractJsonResult parse stdoutB = Except.ok none) ∧
    (∀ r, extractJsonResult parse stdoutB = Except.ok r →
      executeFinish parse stdoutB stderrB exitCode durationMs = Except.ok {
        exit_code := exitCode, stdout := stdoutB, stderr := stderrB,
        json_result := r, duration_ms := durationMs }) := by
  refine ⟨?_, ?_, ?_, ?_, ?_⟩
  · unfold extractJsonResult
    split_ifs
    · exact ⟨none, rfl⟩
    · cases h1 : findSub stdoutB jsonStartMarker with
      | none => exact ⟨none, rfl⟩
      | some pos =>
        cases h2 : findSub (stdoutB.drop (pos + jsonStartMarker.length)) jsonEndMarker with
        | none => simp [h1, h2]
        | some rel =>
          cases h3 : parse (trimChars ((stdoutB.drop (pos + jsonStartMarker.length)).take rel)) with
          | none => simp [h1, h2, h3]
          | some v => simp [h1, h2, h3]
  · intro h
    unfold extractJsonResult
    rw [if_pos (by rw [h])]
  · intro pos h1 h2
    have hcont : containsSub stdoutB jsonStartMarker = true := by
      unfold containsSub
      rw [h1]; rfl
    unfold extractJsonResult
    rw [if_neg (by rw [hcont]; simp)]
    simp [h1, h2]
  · intro pos rel h1 h2 h3
    have hcont : containsSub stdoutB jsonStartMarker = true := by
      unfold containsSub
      rw [h1]; rfl
    unfold extractJsonResult
    rw [if_neg (by rw [hcont]; simp)]
    simp [h1, h2, h3]
  · intro r hr
    unfold executeFinish
    rw [hr]
    rfl

/-- Claim C10, witness: concrete malformed sentinel outputs — no marker
at all, a start marker with no end marker, and non-JSON text between the
markers (under a parser rejecting that text) — all yield `Ok(None)`, and
`execute` still assembles a successful result. -/
theorem c10_sentinel_extraction_lenient_witness :
    extractJsonResult (fun _ => none) (chars "hello") = Except.ok none ∧
    extractJsonResult (fun _ => none) (chars "__JSON_RESULT__ no end") = Except.ok none ∧
    extractJsonResult (fun _ => none)
      (chars "__JSON_RESULT__ not json __END_JSON__") = Except.ok none ∧
    executeFinish (fun _ => none) (chars "hello") (chars "") 0 5 = Except.ok {
      exit_code := 0, stdout := chars "hello", stderr := chars "",
      json_result := none, duration_ms := 5 } := by
  refine ⟨?_, ?_, ?_, ?_⟩
  · exact (c10_sentinel_extraction_lenient (fun _ => none) (chars "hello")
      [] 0 0).2.1 (by decide)
  · exact (c10_sentinel_extraction_lenient (fun _ => none)
      (chars "__JSON_RESULT__ no end") [] 0 0).2.2.1 0 (by decide) (by decide)
  · exact (c10_sentinel_extraction_lenient (fun _ => none)
      (chars "__JSON_RESULT__ not json __END_JSON__") [] 0 0).2.2.2.1 0 10
      (by decide) (by decide) rfl
  · exact (c10_sentinel_extraction_lenient (fun _ => none) (chars "hello")
      (chars "") 0 5).2.2.2.2 none ((c10_sentinel_extraction_lenient
        (fun _ => none) (chars "hello") [] 0 0).2.1 (by decide))

/-- Claim C7: for every completed `call_sync` POST the result is mapped
by status code — 408 to `Timeout("Request to remote agent timed out")`,
404 to `AgentNotFound`, any other non-2xx (indeed any status other than
200/202/408/404) to `RemoteError{agent_id, message, code}` — and a
200/202 body is decoded as JSON, the empty body giving `null` and an
undecodable body giving `SerializationError`. -/
theorem c7_call_sync_status_mapping (agent : AgentInfo) (status : Nat)
    (bodyRead : Except String String) (parse : String → Except String Json) :
    (status = 408 →
      callSyncCompleted agent status bodyRead parse =
        Except.error (.timeout "Request to remote agent timed out")) ∧
    (status = 404 →
      callSyncCompleted agent status bodyRead parse =
        Except.error (.agentNotFound "Remote agent endpoint not found")) ∧
    (status ≠ 200 → status ≠ 202 → status ≠ 408 → status ≠ 404 →
      callSyncCompleted agent status bodyRead parse =
        Except.error (.remoteError agent.base_url
          ("HTTP " ++ toString status ++ ": " ++
            (match bodyRead with | Except.ok b => b | Except.error _ => ""))
          (some (Int.ofNat status)))) ∧
    ((status = 200 ∨ status = 202) →
      (bodyRead = Except.ok "" →
        callSyncCompleted agent status bodyRead parse = Except.ok Json.null) ∧
      (∀ body e, bodyRead = Except.ok body → body ≠ "" →
        parse body = Except.error e →
        callSyncCompleted agent status bodyRead parse =
          Except.error (.serializationError
            ("Failed to parse response: " ++ e ++ ": " ++ body))) ∧
      (∀ body value, bodyRead = Except.ok body → body ≠ "" →
        parse body = Except.ok value →
        callSyncCompleted agent status bodyRead parse = Except.ok value)) := by
  refine ⟨?_, ?_, ?_, ?_⟩
  · intro h
    subst h
    rfl
  · intro h
    subst h
    rfl
  · intro h200 h202 h408 h404
    unfold callSyncCompleted sendRequestStatus
    rw [if_neg (by simp [h200, h202]), if_neg h408, if_neg h404]
  · intro h2xx
    have hcond : (status = 200 || status = 202) = true := by
      rcases h2xx with h | h <;> simp [h]
    refine ⟨?_, ?_, ?_⟩
    · intro hbody
      unfold callSyncCompleted sendRequestStatus
      rw [if_pos hcond, hbody]
      rfl
    · intro body e hbody hne hparse
      unfold callSyncCompleted sendRequestStatus
      rw [if_pos hcond, hbody]
      simp only [if_neg hne, hparse]
    · intro body value hbody hne hparse
      unfold callSyncCompleted sendRequestStatus
      rw [if_pos hcond, hbody]
      simp only [if_neg hne, hparse]

/-- Claim C7, witness: a concrete agent at base URL `http://peer` —
status 408 with body `slow` resolves to the spec's timeout error, 404 to
`AgentNotFound`, 500 with body `boom` to `RemoteError` with code 500,
and 200 with an empty body to JSON `null`. -/
theorem c7_call_sync_status_mapping_witness :
    (callSyncCompleted
      { id := "peer", name := "Peer", base_url := "http://peer",
        description := none, capabilities := [], metadata := [],
        online := true, last_seen := none }
      408 (Except.ok "slow") (fun s => Except.error s) =
        Except.error (.timeout "Request to remote agent timed out")) ∧
    (callSyncCompleted
      { id := "peer", name := "Peer", base_url := "http://peer",
        description := none, capabilities := [], metadata := [],
        online := true, last_seen := none }
      404 (Except.ok "") (fun s => Except.error s) =
        Except.error (.agentNotFound "Remote agent endpoint not found")) ∧
    (callSyncCompleted
      { id := "peer", name := "Peer", base_url := "http://peer",
        description := none, capabilities := [], metadata := [],
        online := true, last_seen := none }
      500 (Except.ok "boom") (fun s => Except.error s) =
        Except.error (.remoteError "http://peer" ("HTTP " ++ toString (500 : Nat) ++ ": boom")
          (some (Int.ofNat 500)))) ∧
    (callSyncCompleted
      { id := "peer", name := "Peer", base_url := "http://peer",
        description := none, capabilities := [], metadata := [],
        online := true, last_seen := none }
      200 (Except.ok "") (fun s => Except.error s) = Except.ok Json.null) := by
  refine ⟨?_, ?_, ?_, ?_⟩
  · exact (c7_call_sync_status_mapping _ 408 _ _).1 rfl
  · exact (c7_call_sync_status_mapping _ 404 _ _).2.1 rfl
  · exact (c7_call_sync_status_mapping _ 500 _ _).2.2.1
      (by decide) (by decide) (by decide) (by decide)
  · exact ((c7_call_sync_status_mapping _ 200 _ _).2.2.2 (Or.inl rfl)).1 rfl

/-- Looking an agent up after `update_status` returns the stored record
with the `online` flag set and `last_seen` refreshed. -/
theorem regFind_after_update (reg : List (String × AgentInfo))
    (agentId : String) (agent : AgentInfo) (online : Bool) (now : String)
    (h : regFind reg agentId = Except.ok agent) :
    regFind (regUpdateStatus reg agentId online now).2 agentId =
      Except.ok { agent with online := online, last_seen := some now } := by
  induction reg with
  | nil => simp [regFind] at h
  | cons hd tl ih =>
    by_cases hk : hd.1 = agentId
    · have hagent : agent = hd.2 := by
        simp [regFind, List.find?, hk] at h
        exact h.symm
      subst hagent
      simp [regFind, regUpdateStatus, List.find?, hk]
    · have htl : regFind tl agentId = Except.ok agent := by
        simpa [regFind, List.find?, hk] using h
      have hfound : (tl.find? (fun p => p.1 = agentId)).isSome := by
        unfold regFind at htl
        cases hf : tl.find? (fun p => p.1 = agentId) with
        | none => rw [hf] at htl; exact absurd htl (by simp)
        | some p => simp [hf]
      have ihtl := ih htl
      unfold regUpdateStatus at ihtl ⊢
      rw [if_pos hfound] at ihtl
      rw [if_pos (by simp [List.find?, hk, hfound])]
      simpa [regFind, List.find?, hk] using ihtl

/-- Claim C8, counterexample: an agent registered online whose health
check completes with HTTP 500 — the health check did not succeed, yet
`ping` returns `Ok(false)` and the registry entry is left unchanged
(still `online = true`, `last_seen` not refreshed); and for an
unregistered target `ping` fails with `AgentNotFound` rather than never
failing. -/
theorem c8_counterexample :
    (ping [("a",
      { id := "a", name := "A", base_url := "http://a", description := none,
        capabilities := [], metadata := [], online := true, last_seen := none })]
      "a" (some 500) "2026-01-01").1 = Except.ok false ∧
    (ping [("a",
      { id := "a", name := "A", base_url := "http://a", description := none,
        capabilities := [], metadata := [], online := true, last_seen := none })]
      "a" (some 500) "2026-01-01").2 = [("a",
      { id := "a", name := "A", base_url := "http://a", description := none,
        capabilities := [], metadata := [], online := true, last_seen := none })] ∧
    (ping [] "missing" (some 200) "2026-01-01").1 =
      Except.error (.agentNotFound "missing") := by
  refine ⟨rfl, rfl, rfl⟩

/-- Claim C8 (amended): for every registered target agent, `ping`
returns a boolean and never fails (for an unregistered target it fails
with `AgentNotFound`); after it returns, the registry reflects the
outcome as the code defines it — a success-status health response sets
the agent online with a refreshed `last_seen` and returns true, a
transport failure sets it offline with a refreshed `last_seen` and
returns false, while a received non-success response returns false but
leaves the registry entry unchanged. -/
theorem c8_ping_registry_update (reg : List (String × AgentInfo))
    (agentId : String) (agent : AgentInfo) (now : String)
    (h : regFind reg agentId = Except.ok agent) :
    (∀ status, 200 ≤ status → status < 300 →
      ping reg agentId (some status) now =
        (Except.ok true, (regUpdateStatus reg agentId true now).2) ∧
      regFind (ping reg agentId (some status) now).2 agentId =
        Except.ok { agent with online := true, last_seen := some now }) ∧
    (∀ status, ¬(200 ≤ status ∧ status < 300) →
      ping reg agentId (some status) now = (Except.ok false, reg)) ∧
    (ping reg agentId none now =
        (Except.ok false, (regUpdateStatus reg agentId false now).2) ∧
      regFind (ping reg agentId none now).2 agentId =
        Except.ok { agent with online := false, last_seen := some now }) := by
  refine ⟨?_, ?_, ?_⟩
  · intro status hlo hhi
    have hping : ping reg agentId (some status) now =
        (Except.ok true, (regUpdateStatus reg agentId true now).2) := by
      unfold ping
      rw [h]
      simp [hlo, hhi]
    exact ⟨hping, by rw [hping]; exact regFind_after_update reg agentId agent true now h⟩
  · intro status hfail
    unfold ping
    rw [h]
    have : (200 ≤ status && status < 300) = false := by
      rw [Bool.eq_false_iff, Ne, Bool.and_eq_true]
      simpa using hfail
    simp [this]
  · have hping : ping reg agentId none now =
        (Except.ok false, (regUpdateStatus reg agentId false now).2) := by
      unfold ping
      rw [h]
    exact ⟨hping, by rw [hping]; exact regFind_after_update reg agentId agent false now h⟩

/-- Claim C8, witness: a concrete single-agent registry — a 204 health
response marks the agent online with the new timestamp, a 500 response
leaves the registry unchanged, and a transport failure marks it
offline. -/
theorem c8_ping_registry_update_witness :
    (ping [("a",
      { id := "a", name := "A", base_url := "http://a", description := none,
        capabilities := [], metadata := [], online := false, last_seen := none })]
      "a" (some 204) "2026-02-02").1 = Except.ok true ∧
    regFind (ping [("a",
      { id := "a", name := "A", base_url := "http://a", description := none,
        capabilities := [], metadata := [], online := false, last_seen := none })]
      "a" (some 204) "2026-02-02").2 "a" = Except.ok
      { id := "a", name := "A", base_url := "http://a", description := none,
        capabilities := [], metadata := [], online := true,
        last_seen := some "2026-02-02" } ∧
    ping [("a",
      { id := "a", name := "A", base_url := "http://a", description := none,
        capabilities := [], metadata := [], online := false, last_seen := none })]
      "a" (some 500) "2026-02-02" = (Except.ok false, [("a",
      { id := "a", name := "A", base_url := "http://a", description := none,
        capabilities := [], metadata := [], online := false, last_seen := none })]) ∧
    regFind (ping [("a",
      { id := "a", name := "A", base_url := "http://a", description := none,
        capabilities := [], metadata := [], online := true, last_seen := none })]
      "a" none "2026-02-02").2 "a" = Except.ok
      { id := "a", name := "A", base_url := "http://a", description := none,
        capabilities := [], metadata := [], online := false,
        last_seen := some "2026-02-02" } := by
  have h204 := (c8_ping_registry_update [("a",
      { id := "a", name := "A", base_url := "http://a", description := none,
        capabilities := [], metadata := [], online := false, last_seen := none })]
      "a" _ "2026-02-02" rfl).1 204 (by omega) (by omega)
  have h500 := (c8_ping_registry_update [("a",
      { id := "a", name := "A", base_url := "http://a", description := none,
        capabilities := [], metadata := [], online := false, last_seen := none })]
      "a" _ "2026-02-02" rfl).2.1 500 (by omega)
  have hnone := (c8_ping_registry_update [("a",
      { id := "a", name := "A", base_url := "http://a", description := none,
        capabilities := [], metadata := [], online := true, last_seen := none })]
      "a" _ "2026-02-02" rfl).2.2
  exact ⟨by rw [h204.1], h204.2, h500, hnone.2⟩

/-- Claim C3, counterexample: when writing the temp file fails, the code
reports `Io{action: "write"}` without removing the temp file — no
`remove` of the temp path is attempted — so the temp file is not
best-effort removed on every failure, only on a non-`AlreadyExists`
rename failure. -/
theorem c3_counterexample :
    writeAtomic "dir/file.txt" (some "dir") (some "file.txt") 42 7
        { createDirAll := .ok, createTemp := .ok, writeAll := .err "disk full",
          flush := .ok, renameFirst := .ok, removeTarget := .ok, renameRetry := .ok } =
      ([.createDirAll, .createTemp, .writeTemp],
       Except.error (.io "write" (temporaryPath (some "dir") (some "file.txt") 42 7)
         "disk full")) ∧
    FsEvent.removeTempBestEffort ∉
      (writeAtomic "dir/file.txt" (some "dir") (some "file.txt") 42 7
        { createDirAll := .ok, createTemp := .ok, writeAll := .err "disk full",
          flush := .ok, renameFirst := .ok, removeTarget := .ok, renameRetry := .ok }).1 := by
  constructor
  · rfl
  · decide

/-- Claim C3 (amended): the atomic write uses the temp path
`parent/.{basename}.{pid}.{nanos}.tmp`; on the success path it creates
the temp file, writes, flushes and then renames over the target; on
`AlreadyExists` it deletes the target and retries the rename exactly
once; a rename failure other than `AlreadyExists` — and only that
failure — best-effort removes the temp file before reporting
`Io{action, path, source}`; every other failure (create, write, flush,
or a failure during the `AlreadyExists` recovery) reports
`Io{action, path, source}` while leaving the temp file in place; and
every failing outcome is an `Io{action, path, source}` error. -/
theorem c3_write_atomic_behavior (target parentDir fileName : String)
    (pid nanos : Nat) (env : FsEnv) :
    (temporaryPath (some parentDir) (some fileName) pid nanos =
      parentDir ++ "/." ++ fileName ++ "." ++ toString pid ++ "." ++
        toString nanos ++ ".tmp") ∧
    (env.createDirAll = .ok → env.createTemp = .ok → env.writeAll = .ok →
      env.flush = .ok → env.renameFirst = .ok →
      writeAtomic target (some parentDir) (some fileName) pid nanos env =
        ([.createDirAll, .createTemp, .writeTemp, .flushTemp, .rename],
         Except.ok ())) ∧
    (∀ e, env.createDirAll = .ok → env.createTemp = .ok → env.writeAll = .ok →
      env.flush = .ok → env.renameFirst = .errAlreadyExists e →
      env.removeTarget = .ok →
      (writeAtomic target (some parentDir) (some fileName) pid nanos env).1 =
        [.createDirAll, .createTemp, .writeTemp, .flushTemp, .rename,
         .removeTarget, .rename] ∧
      (env.renameRetry = .ok →
        (writeAtomic target (some parentDir) (some fileName) pid nanos env).2 =
          Except.ok ()) ∧
      (∀ e2, env.renameRetry = .err e2 →
        (writeAtomic target (some parentDir) (some fileName) pid nanos env).2 =
          Except.error (.io "rename" target e2))) ∧
    (FsEvent.removeTempBestEffort ∈
        (writeAtomic target (some parentDir) (some fileName) pid nanos env).1 ↔
      (env.createDirAll = .ok ∧ env.createTemp = .ok ∧ env.writeAll = .ok ∧
       env.flush = .ok ∧ ∃ e, env.renameFirst = .errOther e)) ∧
    ((writeAtomic target (some parentDir) (some fileName) pid nanos env).2 =
        Except.ok () ∨
      ∃ action path source,
        (writeAtomic target (some parentDir) (some fileName) pid nanos env).2 =
          Except.error (.io action path source)) := by
  obtain ⟨cda, ct, wa, fl, rf, rt, rr⟩ := env
  refine ⟨rfl, ?_, ?_, ?_, ?_⟩
  · intro h1 h2 h3 h4 h5
    subst h1; subst h2; subst h3; subst h4; subst h5
    rfl
  · intro e h1 h2 h3 h4 h5 h6
    subst h1; subst h2; subst h3; subst h4; subst h5; subst h6
    cases rr with
    | ok =>
      refine ⟨rfl, fun _ => rfl, ?_⟩
      intro e2 h7
      simp at h7
    | err e2 =>
      refine ⟨rfl, ?_, ?_⟩
      · intro h7
        simp at h7
      · intro e3 h7
        injection h7 with he
        subst he
        rfl
  · cases cda <;> cases ct <;> cases wa <;> cases fl <;> cases rf <;>
      cases rt <;> cases rr <;>
      simp [writeAtomic, writeAtomicCore]
  · cases cda <;> cases ct <;> cases wa <;> cases fl <;> cases rf <;>
      cases rt <;> cases rr <;>
      simp [writeAtomic, writeAtomicCore]

/-- Claim C3, witness: concrete runs — the all-success path performs
create, write, flush, rename in order; an `AlreadyExists` first rename
leads to target deletion and exactly one rename retry; and a plain
rename failure best-effort removes the temp file. -/
theorem c3_write_atomic_behavior_witness :
    (writeAtomic "d/f" (some "d") (some "f") 1 2
        { createDirAll := .ok, createTemp := .ok, writeAll := .ok,
          flush := .ok, renameFirst := .ok, removeTarget := .ok,
          renameRetry := .ok } =
      ([.createDirAll, .createTemp, .writeTemp, .flushTemp, .rename],
       Except.ok ())) ∧
    ((writeAtomic "d/f" (some "d") (some "f") 1 2
        { createDirAll := .ok, createTemp := .ok, writeAll := .ok,
          flush := .ok, renameFirst := .errAlreadyExists "exists",
          removeTarget := .ok, renameRetry := .ok }).1 =
      [.createDirAll, .createTemp, .writeTemp, .flushTemp, .rename,
       .removeTarget, .rename]) ∧
    (FsEvent.removeTempBestEffort ∈
      (writeAtomic "d/f" (some "d") (some "f") 1 2
        { createDirAll := .ok, createTemp := .ok, writeAll := .ok,
          flush := .ok, renameFirst := .errOther "boom",
          removeTarget := .ok, renameRetry := .ok }).1) := by
  refine ⟨?_, ?_, ?_⟩
  · exact (c3_write_atomic_behavior "d/f" "d" "f" 1 2
      { createDirAll := .ok, createTemp := .ok, writeAll := .ok,
        flush := .ok, renameFirst := .ok, removeTarget := .ok,
        renameRetry := .ok }).2.1 rfl rfl rfl rfl rfl
  · exact ((c3_write_atomic_behavior "d/f" "d" "f" 1 2
      { createDirAll := .ok, createTemp := .ok, writeAll := .ok,
        flush := .ok, renameFirst := .errAlreadyExists "exists",
        removeTarget := .ok, renameRetry := .ok }).2.2.1 "exists"
      rfl rfl rfl rfl rfl rfl).1
  · exact (c3_write_atomic_behavior "d/f" "d" "f" 1 2
      { createDirAll := .ok, createTemp := .ok, writeAll := .ok,
        flush := .ok, renameFirst := .errOther "boom",
        removeTarget := .ok, renameRetry := .ok }).2.2.2.1.mpr
      ⟨rfl, rfl, rfl, rfl, "boom", rfl⟩

/-- Claim C6: with token budgeting enabled, `build_system_prompt`
returns the concatenation of the static base prompt, the configuration
awareness block derived from the policy config, and the instruction
hierarchy block over the ordered global → workspace → custom stack
(each file truncated to its scope's byte cap), and the returned text is
token-counted into component `SystemPrompt` under the label
`base_system_{retry_attempts}`. -/
theorem c6_build_system_prompt
    (basePrompt : String) (cfg : VTCodeConfig)
    (globalCap workspaceCap customCap : Nat)
    (globalFiles workspaceFiles customFiles : List (String × String))
    (truncated : Bool) (retryAttempts : Nat) :
    buildSystemPrompt
        (mkContextManager basePrompt (some cfg)
          (some (specInstructionBundle globalCap workspaceCap customCap
            globalFiles workspaceFiles customFiles truncated)) true)
        retryAttempts =
      (basePrompt ++ configAwarenessBlock cfg ++
        hierarchyBlock (specInstructionBundle globalCap workspaceCap customCap
          globalFiles workspaceFiles customFiles truncated),
       some (.systemPrompt, "base_system_" ++ toString retryAttempts)) ∧
    (specInstructionBundle globalCap workspaceCap customCap
        globalFiles workspaceFiles customFiles truncated).segments =
      globalFiles.map (fun p =>
        { scope := .globalScope, displayPath := p.1,
          contents := truncateToCap globalCap p.2 }) ++
      workspaceFiles.map (fun p =>
        { scope := .workspaceScope, displayPath := p.1,
          contents := truncateToCap workspaceCap p.2 }) ++
      customFiles.map (fun p =>
        { scope := .customScope, displayPath := p.1,
          contents := truncateToCap customCap p.2 }) ∧
    (∀ cap s, (truncateToCap cap s).length ≤ cap) := by
  refine ⟨rfl, rfl, ?_⟩
  intro cap s
  show (s.data.take cap).length ≤ cap
  simp
